import Mathlib

/-!
Verification of the campus-energy pipeline (`main.py`) against its
natural-language specification.

The Python code is shallowly embedded as follows.

* A CSV cell that the pipeline parses is modelled by the *result* of that
  parse: `pd.to_datetime(x, errors="coerce")` becomes an `Option Int`
  (`none` is `NaT`, i.e. an unparseable timestamp; a parsed timestamp is an
  integer count of seconds since the epoch, 1970-01-01 00:00, which was a
  Thursday), and `pd.to_numeric(x, errors="coerce")` becomes an
  `Option ℚ` (`none` is `NaN`; real-valued kWh readings are modelled by
  exact rationals, abstracting from float rounding as the spec itself does
  with its "modulo floating-point accumulation order" caveat).
* A file in the input directory is a `SrcFile`: its name, whether it
  vanished between discovery and read (the `FileNotFoundError` branch),
  which of the expected columns are present, and its rows as raw parse
  results. `pd.read_csv(..., on_bad_lines="skip")` yields the row list
  itself: a skipped bad line simply never appears in `rows`.
* `DataFrame`s flowing through the pipeline are lists of records
  (`Row`, `SummaryRow`, `AggRow`) in row order.
* `sorted(...)` on paths and `DataFrame.sort_values` are modelled with
  `List.insertionSort`, a stable sort. For the file enumeration this is
  exact (`sorted` is stable and file names in one directory are distinct);
  for `sort_values` the source's default `kind="quicksort"` fixes no tie
  order, so the model's tie order is a definitional choice, and no theorem
  below relies on it.
* `df.groupby("building")` enumerates group keys in sorted order with
  each group's rows in original order, which is pandas' documented
  behaviour (`sort=True` default); its default `dropna=True` silently
  drops rows whose `building` cell is `NaN` from every group. A blank
  building cell reads as `NaN` and survives validation (the `dropna`
  calls in `load_and_merge` name only `timestamp` and `kwh`), so the
  building column of the merged dataset is `Option`-valued.
* `Series.resample("D")` / `resample("W")` inside a groupby produce one
  bin per calendar day (resp. per week ending Sunday, label = bin end,
  closed on the right) from the group's first bin through its last bin,
  empty bins summing to `0.0`; `resampleSum` below reproduces these bins.
-/

deriving instance DecidableEq for Except

namespace CampusEnergy

/-- Stable insertion of `a` into `l`: `a` is placed before the first
element `b` with `le a b`. -/
def orderedInsertB {α : Type} (le : α → α → Bool) (a : α) : List α → List α
  | [] => [a]
  | b :: l => if le a b then a :: b :: l else b :: orderedInsertB le a l

/-- Stable insertion sort, modelling Python's `sorted` and pandas'
sorts (see the module comment). -/
def sortListB {α : Type} (le : α → α → Bool) : List α → List α
  | [] => []
  | a :: l => orderedInsertB le a (sortListB le l)

/-- Lexicographic comparison of strings by code point, the order Python
uses to compare `str` (and hence to sort file names and group keys). -/
def charsLe : List Char → List Char → Bool
  | [], _ => true
  | _ :: _, [] => false
  | a :: as, b :: bs => if a = b then charsLe as bs else decide (a < b)

/-- Code-point order on strings. -/
def strLe (a b : String) : Bool := charsLe a.data b.data

/-- Raw row of one CSV file, holding the parse results of its cells:
`timestamp` is the outcome of `pd.to_datetime(..., errors="coerce")`
(`none` = `NaT`), `kwh` the outcome of `pd.to_numeric(..., errors="coerce")`
(`none` = `NaN`), and `building` the value `pd.read_csv` read from the
`building` column, where `none` is the `NaN` a blank or `NA` cell
yields (meaningful only when the file has that column). -/
structure RawRow where
  timestamp : Option Int
  kwh : Option ℚ
  building : Option String
  deriving DecidableEq, Repr

/-- One candidate file of the input directory. `vanished` models a file
that disappears between discovery and read (`FileNotFoundError`);
`has_timestamp_col` / `has_kwh_col` / `has_building_col` record which of
the expected columns `pd.read_csv` finds. -/
structure SrcFile where
  name : String
  vanished : Bool
  has_timestamp_col : Bool
  has_kwh_col : Bool
  has_building_col : Bool
  rows : List RawRow
  deriving DecidableEq, Repr

/-- A row of the merged dataset: columns `building`, `timestamp`, `kwh`.
The `building` cell can be `none`: a blank building cell reads as `NaN`,
and the `dropna` calls in `load_and_merge` are restricted to the
`timestamp` and `kwh` columns, so such a row survives validation. -/
structure Row where
  building : Option String
  timestamp : Int
  kwh : ℚ
  deriving DecidableEq, Repr

/-- A row of `building_wise_summary`'s output. -/
structure SummaryRow where
  building : String
  mean_kwh : ℚ
  min_kwh : ℚ
  max_kwh : ℚ
  total_kwh : ℚ
  deriving DecidableEq, Repr

/-- A row of the daily/weekly aggregate tables: columns `building`,
`timestamp` (the bin label, as a day index since the epoch), `kwh`. -/
structure AggRow where
  building : String
  timestamp : Int
  kwh : ℚ
  deriving DecidableEq, Repr

/-- `Path.stem` for a name ending in `.csv`: the name without the
4-character extension. -/
def stemOf (s : String) : String := ⟨s.data.take (s.data.length - 4)⟩

/-- Whether a file name matches the glob pattern `*.csv`. -/
def matchesCsvGlob (s : String) : Bool := ".csv".data.isSuffixOf s.data

/-- Body of the `for csv_file in sorted(data_path.glob("*.csv"))` loop in
`load_and_merge`: either a validated frame (`some rows`, possibly empty)
to append to `frames`, or `none` for a skipped source, together with the
diagnostic messages appended to `log` (one for each skip, none otherwise).
The surviving rows are those whose timestamp survives
`to_datetime`+`dropna` and whose kwh survives `to_numeric`+`dropna`; the
`building` column is filled with the file stem when absent. -/
def processSource (f : SrcFile) : Option (List Row) × List String :=
  if f.vanished then
    (none, ["Missing file: " ++ f.name])
  else if !(f.has_timestamp_col && f.has_kwh_col) then
    (none, ["Invalid structure in: " ++ f.name])
  else
    (some (f.rows.filterMap fun r =>
      match r.timestamp, r.kwh with
      | some t, some k =>
          some { building := if f.has_building_col then r.building else some (stemOf f.name)
                 timestamp := t
                 kwh := k }
      | _, _ => none), [])

/-- The files `sorted(data_path.glob("*.csv"))` enumerates: those whose
name matches `*.csv`, in ascending name order. -/
def consideredFiles (dir : List SrcFile) : List SrcFile :=
  sortListB (fun f g => strLe f.name g.name) (dir.filter fun f => matchesCsvGlob f.name)

/-- `merged.sort_values("timestamp")` (see the module comment on tie
order). -/
def sortByTimestamp (rows : List Row) : List Row :=
  sortListB (fun a b => decide (a.timestamp ≤ b.timestamp)) rows

/-- `load_and_merge`: process each considered file in order, accumulating
frames and the diagnostics log; raise (`Except.error`) when `frames` is
empty, else concatenate and sort by timestamp. Note that a readable file
with both expected columns contributes a frame even when that frame has
zero rows. -/
def load_and_merge (dir : List SrcFile) : Except String (List Row × List String) :=
  let acc := (consideredFiles dir).foldl
    (fun (acc : List (List Row) × List String) f =>
      match processSource f with
      | (some rows, msgs) => (acc.1 ++ [rows], acc.2 ++ msgs)
      | (none, msgs) => (acc.1, acc.2 ++ msgs))
    ([], [])
  if acc.1 = [] then
    Except.error "No valid CSV files found in data folder"
  else
    Except.ok (sortByTimestamp acc.1.flatten, acc.2)

/-- Group keys of `df.groupby("building")`: the distinct non-null
building names, in ascending order. `groupby`'s default `dropna=True`
silently drops rows whose `building` key is `NaN` from every group, so
`none` cells contribute no key. -/
def groupKeys (df : List Row) : List String :=
  sortListB strLe (df.filterMap (·.building)).dedup

/-- The rows of `df` belonging to one group of `df.groupby("building")`,
in original order. -/
def groupRows (df : List Row) (b : String) : List Row :=
  df.filter fun r => r.building = some b

/-- The kwh series of one building group. -/
def kwhsOf (df : List Row) (b : String) : List ℚ :=
  (groupRows df b).map (·.kwh)

/-- `building_wise_summary`: per building, pandas `mean`/`min`/`max`/`sum`
of the group's kwh series. Groups are nonempty, so the `getD 0` defaults
of `min?`/`max?` are never taken. -/
def building_wise_summary (df : List Row) : List SummaryRow :=
  (groupKeys df).map fun b =>
    let ks := kwhsOf df b
    { building := b
      mean_kwh := ks.sum / (ks.length : ℚ)
      min_kwh := (ks.min?).getD 0
      max_kwh := (ks.max?).getD 0
      total_kwh := ks.sum }

/-- Calendar day containing an epoch-seconds timestamp (floor). -/
def dayOf (t : Int) : Int := Int.fdiv t 86400

/-- Label of the `resample("W")` bin containing `t`: the day index of the
first Sunday on or after `t`'s day. Epoch day 0 was a Thursday, so
Sundays are the days congruent to 3 mod 7. -/
def weekEndOf (t : Int) : Int := dayOf t + (3 - dayOf t) % 7

/-- One group's rows of
`df.groupby("building")["kwh"].resample(freq).sum()`: bins of width
`step` run from the bin of the group's earliest timestamp through the
bin of its latest, and each bin row holds the sum of the group's kwh
values falling in that bin — an empty bin sums to `0`. -/
def resampleBlock (bucket : Int → Int) (step : Int) (df : List Row) (b : String) :
    List AggRow :=
  match ((groupRows df b).map fun r => bucket r.timestamp).min?,
        ((groupRows df b).map fun r => bucket r.timestamp).max? with
  | some lo, some hi =>
      (List.range ((hi - lo) / step).toNat.succ).map fun (i : Nat) =>
        { building := b
          timestamp := lo + step * (i : Int)
          kwh := (((groupRows df b).filter
                    fun r => bucket r.timestamp = lo + step * (i : Int)).map (·.kwh)).sum }
  | _, _ => []

/-- Common core of `calculate_daily_totals` and
`calculate_weekly_aggregates`:
`df.groupby("building")["kwh"].resample(freq).sum().reset_index()` —
the per-building blocks concatenated in group-key order. -/
def resampleSum (bucket : Int → Int) (step : Int) (df : List Row) : List AggRow :=
  (groupKeys df).flatMap (resampleBlock bucket step df)

/-- `calculate_daily_totals`: daily bins, labelled by day. -/
def calculate_daily_totals (df : List Row) : List AggRow :=
  resampleSum dayOf 1 df

/-- `calculate_weekly_aggregates`: weekly bins ending Sunday, labelled by
the closing Sunday. -/
def calculate_weekly_aggregates (df : List Row) : List AggRow :=
  resampleSum weekEndOf 7 df

/-- One meter reading, as stored by the registry. -/
structure MeterReading where
  timestamp : Int
  kwh : ℚ
  deriving DecidableEq, Repr

/-- A building accumulator of the registry path. -/
structure Building where
  name : String
  meter_readings : List MeterReading
  deriving DecidableEq, Repr

/-- `Building.add_reading`. -/
def Building.add_reading (b : Building) (r : MeterReading) : Building :=
  { b with meter_readings := b.meter_readings ++ [r] }

/-- The record `Building.generate_report` returns. -/
structure Report where
  building : String
  total_kwh : ℚ
  mean_kwh : ℚ
  max_kwh : ℚ
  deriving DecidableEq, Repr

/-- `Building.generate_report`: all-zero statistics for an empty readings
list, otherwise sum / mean / max of the readings' kwh values. -/
def Building.generate_report (b : Building) : Report :=
  if b.meter_readings = [] then
    { building := b.name, total_kwh := 0, mean_kwh := 0, max_kwh := 0 }
  else
    let vals := b.meter_readings.map (·.kwh)
    { building := b.name
      total_kwh := vals.sum
      mean_kwh := vals.sum / (vals.length : ℚ)
      max_kwh := (vals.max?).getD 0 }

/-- The registry: a `dict` from names to `Building` objects, modelled as
an association list in insertion order with the heap of `Building`
objects inlined (Python aliasing of a building object becomes keyed
access into this state). -/
structure BuildingManager where
  buildings : List (String × Building)
  nan_buildings : List (List MeterReading)
  deriving DecidableEq, Repr

/-- `BuildingManager.get_or_create`: return the registry state after the
call together with the building the call returns. -/
def BuildingManager.get_or_create (m : BuildingManager) (name : String) :
    BuildingManager × Building :=
  match m.buildings.lookup name with
  | some b => (m, b)
  | none =>
      let b : Building := { name := name, meter_readings := [] }
      ({ m with buildings := m.buildings ++ [(name, b)] }, b)

/-- Mutation `b.add_reading(reading)` performed through the handle that
`get_or_create name` returned: in the state model, append the reading to
the registry's building stored under `name`. -/
def BuildingManager.add_reading_to (m : BuildingManager) (name : String)
    (r : MeterReading) : BuildingManager :=
  { m with buildings := m.buildings.map fun p =>
      if p.1 = name then (p.1, p.2.add_reading r) else p }

/-- `BuildingManager.load_from_df`: iterate the merged rows in order,
`get_or_create` the row's building and add the reading to it. When the
row's building cell is `NaN` (`none`), the real code still calls
`get_or_create(nan)`: the key it passes is a freshly boxed `float` NaN
from the row's `iterrows` Series, which is identical to no stored key
and compares unequal to every key (`nan != nan`), so the dict membership
test always misses, a fresh `Building(nan)` is created, and exactly this
one reading is appended to it. These NaN-keyed accumulators are
`nan_buildings`, in creation order. -/
def BuildingManager.load_row (m : BuildingManager) (row : Row) : BuildingManager :=
  match row.building with
  | some name =>
      ((m.get_or_create name).1).add_reading_to name
        { timestamp := row.timestamp, kwh := row.kwh }
  | none =>
      { m with nan_buildings :=
          m.nan_buildings ++ [[{ timestamp := row.timestamp, kwh := row.kwh }]] }

def BuildingManager.load_from_df (m : BuildingManager) (df : List Row) :
    BuildingManager :=
  df.foldl BuildingManager.load_row m

/-- `BuildingManager.summary_table`: one report per registered building.
This lists the reports of the string-named buildings; a registry whose
`nan_buildings` is nonempty has further report rows (labelled `NaN`)
that the `Report.building : String` field cannot carry, so the model is
complete exactly when `nan_buildings = []`. -/
def BuildingManager.summary_table (m : BuildingManager) : List Report :=
  m.buildings.map fun p => p.2.generate_report

/-- The readings currently stored under `name` (empty when `name` is not
registered). -/
def BuildingManager.readingsOf (m : BuildingManager) (name : String) :
    List MeterReading :=
  ((m.buildings.lookup name).map (·.meter_readings)).getD []

/-- The part of `main` up to the first file write: run `load_and_merge`;
on its exception nothing downstream executes and no output file is
written (`none`), otherwise the cleaned export and the building summary
export are produced. -/
def run_pipeline (dir : List SrcFile) : Option (List Row × List SummaryRow) :=
  match load_and_merge dir with
  | Except.error _ => none
  | Except.ok (merged, _) => some (merged, building_wise_summary merged)

/-! ### Sorting infrastructure lemmas -/

theorem orderedInsertB_perm {α : Type} (le : α → α → Bool) (a : α) (l : List α) :
    List.Perm (orderedInsertB le a l) (a :: l) := by
  induction l with
  | nil => exact List.Perm.refl _
  | cons b l ih =>
    simp only [orderedInsertB]
    split
    · exact List.Perm.refl _
    · exact (ih.cons b).trans (List.Perm.swap a b l)

theorem sortListB_perm {α : Type} (le : α → α → Bool) (l : List α) :
    List.Perm (sortListB le l) l := by
  induction l with
  | nil => exact List.Perm.refl _
  | cons a l ih => exact (orderedInsertB_perm le a (sortListB le l)).trans (ih.cons a)

theorem mem_sortListB {α : Type} {le : α → α → Bool} {l : List α} {x : α} :
    x ∈ sortListB le l ↔ x ∈ l :=
  (sortListB_perm le l).mem_iff

theorem nodup_sortListB {α : Type} {le : α → α → Bool} {l : List α} (h : l.Nodup) :
    (sortListB le l).Nodup :=
  ((sortListB_perm le l).nodup_iff).mpr h

theorem mem_orderedInsertB {α : Type} {le : α → α → Bool} {l : List α} {a x : α} :
    x ∈ orderedInsertB le a l ↔ x = a ∨ x ∈ l := by
  rw [(orderedInsertB_perm le a l).mem_iff, List.mem_cons]

theorem pairwise_orderedInsertB {α : Type} {le : α → α → Bool}
    (htot : ∀ a b, le a b = true ∨ le b a = true)
    (htrans : ∀ a b c, le a b = true → le b c = true → le a c = true)
    {a : α} {l : List α} (h : l.Pairwise fun x y => le x y = true) :
    (orderedInsertB le a l).Pairwise fun x y => le x y = true := by
  induction l with
  | nil => simp [orderedInsertB]
  | cons b l ih =>
    rw [List.pairwise_cons] at h
    obtain ⟨hb, hl⟩ := h
    simp only [orderedInsertB]
    split
    · rename_i hab
      exact List.Pairwise.cons
        (by
          intro x hx
          rcases List.mem_cons.mp hx with rfl | hx
          · exact hab
          · exact htrans a b x hab (hb x hx))
        (List.Pairwise.cons hb hl)
    · rename_i hab
      refine List.Pairwise.cons ?_ (ih hl)
      intro x hx
      rcases mem_orderedInsertB.mp hx with rfl | hx
      · rcases htot x b with hxb | hbx
        · exact absurd hxb hab
        · exact hbx
      · exact hb x hx

theorem pairwise_sortListB {α : Type} {le : α → α → Bool}
    (htot : ∀ a b, le a b = true ∨ le b a = true)
    (htrans : ∀ a b c, le a b = true → le b c = true → le a c = true)
    (l : List α) :
    (sortListB le l).Pairwise fun x y => le x y = true := by
  induction l with
  | nil => simp [sortListB]
  | cons a l ih => exact pairwise_orderedInsertB htot htrans ih

theorem charsLe_total : ∀ a b : List Char, charsLe a b = true ∨ charsLe b a = true := by
  intro a
  induction a with
  | nil => intro b; left; rfl
  | cons x xs ih =>
    intro b
    cases b with
    | nil => right; rfl
    | cons y ys =>
      by_cases hxy : x = y
      · subst hxy
        simpa [charsLe] using ih ys
      · rcases lt_or_gt_of_ne hxy with hlt | hgt
        · left; simp [charsLe, hxy, hlt]
        · right; simp [charsLe, Ne.symm hxy, hgt]

theorem charsLe_trans :
    ∀ a b c : List Char, charsLe a b = true → charsLe b c = true → charsLe a c = true := by
  intro a
  induction a with
  | nil => intro b c _ _; rfl
  | cons x xs ih =>
    intro b c hab hbc
    cases b with
    | nil => simp [charsLe] at hab
    | cons y ys =>
      cases c with
      | nil => simp [charsLe] at hbc
      | cons z zs =>
        by_cases hxy : x = y
        · subst hxy
          by_cases hyz : x = z
          · subst hyz
            simp only [charsLe, if_pos rfl] at hab hbc ⊢
            exact ih ys zs hab hbc
          · simp only [charsLe, if_pos rfl] at hab
            simpa [charsLe, hyz] using hbc
        · simp only [charsLe, if_neg hxy, decide_eq_true_eq] at hab
          by_cases hyz : y = z
          · subst hyz
            simp [charsLe, hxy, hab]
          · simp only [charsLe, if_neg hyz, decide_eq_true_eq] at hbc
            have hxz : x < z := lt_trans hab hbc
            simp [charsLe, ne_of_lt hxz, hxz]

theorem strLe_total : ∀ a b : String, strLe a b = true ∨ strLe b a = true :=
  fun a b => charsLe_total a.data b.data

theorem strLe_trans : ∀ a b c : String, strLe a b = true → strLe b c = true → strLe a c = true :=
  fun a b c => charsLe_trans a.data b.data c.data

/-! ### Registry lemmas (claims C8, C9) -/

theorem lookup_append_of_none {β : Type} {l₁ : List (String × β)} (l₂ : List (String × β))
    {k : String} (h : l₁.lookup k = none) : (l₁ ++ l₂).lookup k = l₂.lookup k := by
  induction l₁ with
  | nil => rfl
  | cons p t ih =>
    rw [List.cons_append]
    simp only [List.lookup] at h ⊢
    cases hk : (k == p.1) with
    | true => simp [hk] at h
    | false => simp only [hk] at h ⊢; exact ih h

theorem lookup_map_update {β : Type} (g : β → β) (n : String) :
    ∀ l : List (String × β),
      (l.map fun p => if p.1 = n then (p.1, g p.2) else p).lookup n
        = (l.lookup n).map g
  | [] => rfl
  | (a, v) :: t => by
    rw [List.map_cons]
    by_cases hp : a = n
    · subst hp
      have hhead : (if ((a, v) : String × β).1 = a then (((a, v) : String × β).1, g v)
          else ((a, v) : String × β)) = (a, g v) := by simp
      rw [hhead]
      simp [List.lookup]
    · have hhead : (if ((a, v) : String × β).1 = n then (((a, v) : String × β).1, g v)
          else ((a, v) : String × β)) = (a, v) := by simp [hp]
      have hb : (n == a) = false := by simp [Ne.symm hp]
      rw [hhead]
      simp [List.lookup, hb, lookup_map_update g n t]

theorem lookup_map_update_ne {β : Type} (g : β → β) {n k : String} (h : k ≠ n) :
    ∀ l : List (String × β),
      (l.map fun p => if p.1 = n then (p.1, g p.2) else p).lookup k = l.lookup k
  | [] => rfl
  | (a, v) :: t => by
    rw [List.map_cons]
    by_cases hp : a = n
    · subst hp
      have hhead : (if ((a, v) : String × β).1 = a then (((a, v) : String × β).1, g v)
          else ((a, v) : String × β)) = (a, g v) := by simp
      have hb : (k == a) = false := by simp [h]
      rw [hhead]
      simp [List.lookup, hb, lookup_map_update_ne g h t]
    · have hhead : (if ((a, v) : String × β).1 = n then (((a, v) : String × β).1, g v)
          else ((a, v) : String × β)) = (a, v) := by simp [hp]
      rw [hhead]
      cases hk : (k == a) with
      | true => simp [List.lookup, hk]
      | false => simp [List.lookup, hk, lookup_map_update_ne g h t]

theorem lookup_add_reading_to (m : BuildingManager) (n : String) (r : MeterReading) :
    (m.add_reading_to n r).buildings.lookup n =
      (m.buildings.lookup n).map (·.add_reading r) := by
  unfold BuildingManager.add_reading_to
  exact lookup_map_update (fun b => Building.add_reading b r) n m.buildings

theorem lookup_add_reading_to_ne (m : BuildingManager) {n k : String} (r : MeterReading)
    (h : k ≠ n) :
    (m.add_reading_to n r).buildings.lookup k = m.buildings.lookup k := by
  unfold BuildingManager.add_reading_to
  exact lookup_map_update_ne (fun b => Building.add_reading b r) h m.buildings

theorem get_or_create_of_lookup_some {m : BuildingManager} {n : String} {b : Building}
    (h : m.buildings.lookup n = some b) : m.get_or_create n = (m, b) := by
  unfold BuildingManager.get_or_create
  rw [h]

theorem lookup_get_or_create (m : BuildingManager) (n : String) :
    ((m.get_or_create n).1).buildings.lookup n = some (m.get_or_create n).2 := by
  unfold BuildingManager.get_or_create
  cases h : m.buildings.lookup n with
  | some b => simp [h]
  | none =>
    simp only [h]
    rw [lookup_append_of_none _ h]
    simp [List.lookup]

/-- C8: `get_or_create` is idempotent — a second call with the same name
returns the same accumulator and leaves the registry unchanged — and
readings added under a name accumulate in the one collection stored for
that name. -/
theorem get_or_create_idempotent (m : BuildingManager) (n : String) :
    (m.get_or_create n).1.get_or_create n = m.get_or_create n ∧
      ∀ r : MeterReading,
        ((m.get_or_create n).1.add_reading_to n r).readingsOf n =
          (m.get_or_create n).1.readingsOf n ++ [r] := by
  constructor
  · exact (get_or_create_of_lookup_some (lookup_get_or_create m n)).trans Prod.mk.eta
  · intro r
    unfold BuildingManager.readingsOf
    rw [lookup_add_reading_to, lookup_get_or_create m n]
    simp [Building.add_reading]

/-- C9: a building whose readings collection is empty reports all-zero
statistics; the mean/max reductions are never evaluated on an empty
collection. -/
theorem generate_report_of_empty (b : Building) (h : b.meter_readings = []) :
    b.generate_report =
      { building := b.name, total_kwh := 0, mean_kwh := 0, max_kwh := 0 } := by
  unfold Building.generate_report
  rw [if_pos h]

/-- Witness for C9 at a concrete empty-readings building. -/
theorem generate_report_of_empty_witness :
    (Building.mk "Library" []).meter_readings = [] ∧
      (Building.mk "Library" []).generate_report =
        { building := "Library", total_kwh := 0, mean_kwh := 0, max_kwh := 0 } :=
  ⟨rfl, generate_report_of_empty (Building.mk "Library" []) rfl⟩

attribute [local semireducible] Rat.add Rat.mul Rat.inv Rat.sub

/-! ### Summary-sum partition (claim C2) -/

theorem sum_map_add_split {α : Type} (f g : α → ℚ) :
    ∀ l : List α, (l.map fun x => f x + g x).sum = (l.map f).sum + (l.map g).sum
  | [] => by simp
  | x :: t => by
    simp only [List.map_cons, List.sum_cons, sum_map_add_split f g t]
    ring

theorem sum_map_ite_eq (c : ℚ) (x : String) :
    ∀ keys : List String, keys.Nodup → x ∈ keys →
      (keys.map fun b => if x = b then c else 0).sum = c := by
  intro keys
  induction keys with
  | nil => intro _ hx; cases hx
  | cons k t ih =>
    intro hnd hx
    rw [List.nodup_cons] at hnd
    rcases List.mem_cons.mp hx with rfl | hx
    · have ht : (t.map fun b => if x = b then c else 0).sum = 0 := by
        apply List.sum_eq_zero
        intro q hq
        rcases List.mem_map.mp hq with ⟨b, hb, rfl⟩
        have : x ≠ b := fun hxb => hnd.1 (hxb ▸ hb)
        simp [this]
      simp [ht]
    · have hk : x ≠ k := fun hxk => hnd.1 (hxk ▸ hx)
      simp [hk, ih hnd.2 hx]

theorem sum_filter_partition (keys : List String) (hnd : keys.Nodup) :
    ∀ rows : List Row, (∀ r ∈ rows, ∀ s : String, r.building = some s → s ∈ keys) →
      (keys.map fun b =>
          ((rows.filter fun r => r.building = some b).map (·.kwh)).sum).sum
        = ((rows.filter fun r => r.building.isSome).map (·.kwh)).sum := by
  intro rows
  induction rows with
  | nil => simp
  | cons r rest ih =>
    intro hcov
    have h1 : ∀ b : String,
        (((r :: rest).filter fun q => q.building = some b).map (·.kwh)).sum
          = (if r.building = some b then r.kwh else 0)
              + ((rest.filter fun q => q.building = some b).map (·.kwh)).sum := by
      intro b
      by_cases hb : r.building = some b
      · simp [List.filter_cons, hb]
      · simp [List.filter_cons, hb]
    have h2 : (keys.map fun b => if r.building = some b then r.kwh else 0).sum
        = if r.building.isSome then r.kwh else 0 := by
      cases hsb : r.building with
      | none =>
        have hz : ∀ q ∈ keys.map fun b =>
            if (none : Option String) = some b then r.kwh else 0, q = 0 := by
          intro q hq
          rcases List.mem_map.mp hq with ⟨b, _, rfl⟩
          simp
        simp only [hsb, Option.isSome_none, Bool.false_eq_true, if_false]
        exact List.sum_eq_zero hz
      | some v =>
        have hv : v ∈ keys := hcov r (List.mem_cons_self r rest) v hsb
        simp only [hsb, Option.some.injEq, Option.isSome_some, if_true]
        exact sum_map_ite_eq r.kwh v keys hnd hv
    have h3 : (((r :: rest).filter fun q => q.building.isSome).map (·.kwh)).sum
        = (if r.building.isSome then r.kwh else 0)
            + ((rest.filter fun q => q.building.isSome).map (·.kwh)).sum := by
      by_cases hb : r.building.isSome
      · simp [List.filter_cons, hb]
      · simp [List.filter_cons, hb]
    calc (keys.map fun b =>
            (((r :: rest).filter fun q => q.building = some b).map (·.kwh)).sum).sum
        = (keys.map fun b => (if r.building = some b then r.kwh else 0)
              + ((rest.filter fun q => q.building = some b).map (·.kwh)).sum).sum := by
          simp only [h1]
      _ = (keys.map fun b => if r.building = some b then r.kwh else 0).sum
            + (keys.map fun b =>
                ((rest.filter fun q => q.building = some b).map (·.kwh)).sum).sum :=
          sum_map_add_split _ _ keys
      _ = (if r.building.isSome then r.kwh else 0)
            + ((rest.filter fun q => q.building.isSome).map (·.kwh)).sum := by
          rw [h2, ih fun q hq => hcov q (List.mem_cons_of_mem r hq)]
      _ = (((r :: rest).filter fun q => q.building.isSome).map (·.kwh)).sum := h3.symm

theorem nodup_groupKeys (df : List Row) : (groupKeys df).Nodup :=
  nodup_sortListB (List.nodup_dedup _)

theorem mem_groupKeys {df : List Row} {b : String} :
    b ∈ groupKeys df ↔ b ∈ df.filterMap (·.building) := by
  unfold groupKeys
  rw [mem_sortListB, List.mem_dedup]

/-- C2 amended: the Building Summary's `total_kwh` column sums to the
sum of `kwh` over the rows whose building key is non-null — a row with a
`NaN` building key is dropped from every group, so its kwh is counted in
no building — each summary row's `total_kwh` is the sum of its
building's rows, and each building occurs exactly once in the summary. -/
theorem summary_total_kwh_partition (df : List Row) :
    ((building_wise_summary df).map (·.total_kwh)).sum
        = ((df.filter fun r => r.building.isSome).map (·.kwh)).sum ∧
      (∀ s ∈ building_wise_summary df,
        s.total_kwh
          = ((df.filter fun r => r.building = some s.building).map (·.kwh)).sum) ∧
      ((building_wise_summary df).map (·.building)).Nodup := by
  refine ⟨?_, ?_, ?_⟩
  · have h : ((building_wise_summary df).map (·.total_kwh)).sum
        = ((groupKeys df).map fun b =>
            ((df.filter fun r => r.building = some b).map (·.kwh)).sum).sum := by
      unfold building_wise_summary
      rw [List.map_map]
      rfl
    rw [h]
    exact sum_filter_partition (groupKeys df) (nodup_groupKeys df) df
      fun r hr s hs => mem_groupKeys.mpr (List.mem_filterMap.mpr ⟨r, hr, hs⟩)
  · intro s hs
    unfold building_wise_summary at hs
    rcases List.mem_map.mp hs with ⟨b, _, rfl⟩
    rfl
  · have h : (building_wise_summary df).map (·.building) = groupKeys df := by
      unfold building_wise_summary
      rw [List.map_map]
      exact List.map_id _
    rw [h]
    exact nodup_groupKeys df

/-- Witness for C2 (amended) at a concrete merged dataset with two
buildings, a repeated building, and only non-null building keys. -/
theorem summary_total_kwh_partition_witness :
    ((building_wise_summary
        ([⟨some "A", 0, 1⟩, ⟨some "B", 5, 4⟩, ⟨some "A", 3, 2⟩] : List Row)).map
          (·.total_kwh)).sum
      = ((([⟨some "A", 0, 1⟩, ⟨some "B", 5, 4⟩, ⟨some "A", 3, 2⟩] : List Row).filter
          fun r => r.building.isSome).map (·.kwh)).sum ∧
    SummaryRow.mk "A" (3/2) 1 2 3 ∈
        building_wise_summary
          ([⟨some "A", 0, 1⟩, ⟨some "B", 5, 4⟩, ⟨some "A", 3, 2⟩] : List Row) ∧
    (SummaryRow.mk "A" (3/2) 1 2 3).total_kwh
      = ((([⟨some "A", 0, 1⟩, ⟨some "B", 5, 4⟩, ⟨some "A", 3, 2⟩] : List Row).filter
          fun r => r.building = some (SummaryRow.mk "A" (3/2) 1 2 3).building).map
            (·.kwh)).sum := by
  have hmem : SummaryRow.mk "A" (3/2) 1 2 3 ∈
      building_wise_summary
        ([⟨some "A", 0, 1⟩, ⟨some "B", 5, 4⟩, ⟨some "A", 3, 2⟩] : List Row) := by decide
  exact ⟨(summary_total_kwh_partition
      [⟨some "A", 0, 1⟩, ⟨some "B", 5, 4⟩, ⟨some "A", 3, 2⟩]).1, hmem,
    (summary_total_kwh_partition
      [⟨some "A", 0, 1⟩, ⟨some "B", 5, 4⟩, ⟨some "A", 3, 2⟩]).2.1 _ hmem⟩

/-- Counterexample to C2 as stated: a merged row whose building cell is
blank reads as `NaN`, survives validation, and is dropped by `groupby`'s
default `dropna=True`; its kwh is in no building's `total_kwh`, so the
summary total (1) undercounts the merged total (5) and the row belongs
to no building. -/
theorem nan_building_breaks_partition :
    ((building_wise_summary ([⟨some "A", 0, 1⟩, ⟨none, 5, 4⟩] : List Row)).map
        (·.total_kwh)).sum = 1 ∧
      (([⟨some "A", 0, 1⟩, ⟨none, 5, 4⟩] : List Row).map (·.kwh)).sum = 5 ∧
      (1 : ℚ) ≠ 5 := by
  refine ⟨by decide, by decide, by decide⟩

/-! ### Source enumeration (claim C10) -/

/-- C10: a file whose name does not match `*.csv` changes nothing — not
the merged rows and not the diagnostics log — and the considered files
are enumerated in ascending name order. -/
theorem non_csv_file_ignored (dir : List SrcFile) (f : SrcFile)
    (h : matchesCsvGlob f.name = false) :
    load_and_merge (f :: dir) = load_and_merge dir ∧
      (consideredFiles (f :: dir)).Pairwise fun a b => strLe a.name b.name = true := by
  have hcf : consideredFiles (f :: dir) = consideredFiles dir := by
    unfold consideredFiles
    rw [List.filter_cons_of_neg (by simp [h])]
  refine ⟨?_, ?_⟩
  · unfold load_and_merge
    rw [hcf]
  · rw [hcf]
    exact pairwise_sortListB
      (fun a b : SrcFile => strLe_total a.name b.name)
      (fun a b c : SrcFile => strLe_trans a.name b.name c.name) _

/-- Witness for C10: a `.txt` file in front of a one-file directory. -/
theorem non_csv_file_ignored_witness :
    matchesCsvGlob "notes.txt" = false ∧
      load_and_merge
          [SrcFile.mk "notes.txt" false true true false [⟨some 1, some 1, none⟩],
           SrcFile.mk "a.csv" false true true false [⟨some 0, some 2, none⟩]]
        = load_and_merge [SrcFile.mk "a.csv" false true true false [⟨some 0, some 2, none⟩]] ∧
      (consideredFiles
          [SrcFile.mk "notes.txt" false true true false [⟨some 1, some 1, none⟩],
           SrcFile.mk "a.csv" false true true false [⟨some 0, some 2, none⟩]]).Pairwise
        (fun a b : SrcFile => strLe a.name b.name = true) := by
  have h := non_csv_file_ignored
    [SrcFile.mk "a.csv" false true true false [⟨some 0, some 2, none⟩]]
    (SrcFile.mk "notes.txt" false true true false [⟨some 1, some 1, none⟩])
    (by decide)
  exact ⟨by decide, h.1, h.2⟩

/-! ### Structure of `load_and_merge` (claims C1, C5, C6) -/

theorem load_foldl_spec :
    ∀ (files : List SrcFile) (fr : List (List Row)) (lg : List String),
      files.foldl
        (fun (acc : List (List Row) × List String) f =>
          match processSource f with
          | (some rows, msgs) => (acc.1 ++ [rows], acc.2 ++ msgs)
          | (none, msgs) => (acc.1, acc.2 ++ msgs))
        (fr, lg)
      = (fr ++ files.filterMap fun f => (processSource f).1,
         lg ++ files.flatMap fun f => (processSource f).2)
  | [], fr, lg => by simp
  | f :: t, fr, lg => by
    rw [List.foldl_cons]
    cases hps : processSource f with
    | mk o msgs =>
      cases o with
      | some rows =>
        change List.foldl _ (fr ++ [rows], lg ++ msgs) t = _
        rw [load_foldl_spec t (fr ++ [rows]) (lg ++ msgs)]
        simp [List.filterMap_cons, List.flatMap_cons, hps]
      | none =>
        change List.foldl _ (fr, lg ++ msgs) t = _
        rw [load_foldl_spec t fr (lg ++ msgs)]
        simp [List.filterMap_cons, List.flatMap_cons, hps]

theorem load_and_merge_eq (dir : List SrcFile) :
    load_and_merge dir =
      if ((consideredFiles dir).filterMap fun f => (processSource f).1) = [] then
        Except.error "No valid CSV files found in data folder"
      else
        Except.ok
          (sortByTimestamp
            ((consideredFiles dir).filterMap fun f => (processSource f).1).flatten,
           (consideredFiles dir).flatMap fun f => (processSource f).2) := by
  unfold load_and_merge
  rw [load_foldl_spec (consideredFiles dir) [] []]
  simp

theorem processSource_fst_eq_none_iff (f : SrcFile) :
    (processSource f).1 = none ↔
      f.vanished = true ∨ (f.has_timestamp_col && f.has_kwh_col) = false := by
  unfold processSource
  cases hv : f.vanished with
  | true => simp [hv]
  | false =>
    cases hc : f.has_timestamp_col && f.has_kwh_col with
    | true => simp [hv, hc]
    | false => simp [hv, hc]

/-- C1 amended: `load_and_merge` raises exactly when no considered
source passes the structural check (readable, with both expected
columns) — a structurally sound source prevents the error even when it
yields zero valid rows — and when it raises, the pipeline stops before
any output is produced. -/
theorem load_and_merge_error_iff (dir : List SrcFile) :
    ((∃ e, load_and_merge dir = Except.error e) ↔
      ∀ f ∈ consideredFiles dir,
        f.vanished = true ∨ (f.has_timestamp_col && f.has_kwh_col) = false) ∧
      ∀ e, load_and_merge dir = Except.error e → run_pipeline dir = none := by
  constructor
  · rw [load_and_merge_eq]
    constructor
    · intro ⟨e, he⟩ f hf
      by_cases hnil : ((consideredFiles dir).filterMap fun f => (processSource f).1) = []
      · exact (processSource_fst_eq_none_iff f).mp (List.filterMap_eq_nil_iff.mp hnil f hf)
      · rw [if_neg hnil] at he
        cases he
    · intro hall
      have hnil : ((consideredFiles dir).filterMap fun f => (processSource f).1) = [] :=
        List.filterMap_eq_nil_iff.mpr
          fun f hf => (processSource_fst_eq_none_iff f).mpr (hall f hf)
      exact ⟨_, if_pos hnil⟩
  · intro e he
    unfold run_pipeline
    rw [he]

/-- Witness for C1 (amended) at the empty directory: the error fires and
no outputs are produced. -/
theorem load_and_merge_error_iff_witness : run_pipeline ([] : List SrcFile) = none :=
  (load_and_merge_error_iff []).2 "No valid CSV files found in data folder" (by decide)

/-- Counterexample to C1 as stated: a directory whose single source has
the expected columns but only malformed rows yields zero valid rows from
every source, yet `load_and_merge` returns successfully (an empty merged
dataset) instead of raising. -/
theorem no_valid_rows_yet_no_error :
    load_and_merge
        [SrcFile.mk "meters.csv" false true true false
          [RawRow.mk none (some 9) none, RawRow.mk (some 4) none none]]
      = Except.ok ([], []) ∧
    run_pipeline
        [SrcFile.mk "meters.csv" false true true false
          [RawRow.mk none (some 9) none, RawRow.mk (some 4) none none]]
      = some ([], []) := by
  constructor
  · decide
  · decide

/-- C6 amended: a readable source with both expected columns whose rows
are all malformed contributes zero rows to the merge and appends **no**
diagnostic entry — diagnostics arise only from vanished files and
missing columns. -/
theorem all_malformed_source_contributes_nothing (f : SrcFile)
    (hv : f.vanished = false)
    (hcols : (f.has_timestamp_col && f.has_kwh_col) = true)
    (hrows : ∀ r ∈ f.rows, r.timestamp = none ∨ r.kwh = none) :
    processSource f = (some [], []) := by
  unfold processSource
  rw [hv, hcols]
  simp only [Bool.not_true, Bool.false_eq_true, if_false, ite_false]
  have hnil : (f.rows.filterMap fun r =>
      match r.timestamp, r.kwh with
      | some t, some k =>
          some { building := if f.has_building_col then r.building else stemOf f.name
                 timestamp := t
                 kwh := k }
      | _, _ => none) = ([] : List Row) := by
    apply List.filterMap_eq_nil_iff.mpr
    intro r hr
    rcases hrows r hr with h | h
    · rw [h]
    · rw [h]
      cases r.timestamp <;> rfl
  rw [hnil]

/-- Witness for C6 (amended) at a concrete all-malformed source. -/
theorem all_malformed_source_contributes_nothing_witness :
    processSource
        (SrcFile.mk "lab.csv" false true true true
          [RawRow.mk none (some 2) (some "L"), RawRow.mk (some 7) none (some "L")])
      = (some [], []) :=
  all_malformed_source_contributes_nothing
    (SrcFile.mk "lab.csv" false true true true
      [RawRow.mk none (some 2) (some "L"), RawRow.mk (some 7) none (some "L")])
    rfl rfl (by decide)

/-- Counterexample to C6 as stated: the all-malformed source with intact
columns produces zero rows, but the diagnostics log stays empty — there
is no "exactly one diagnostic entry". -/
theorem all_malformed_source_no_diagnostic :
    load_and_merge
        [SrcFile.mk "lab.csv" false true true true
          [RawRow.mk none (some 2) (some "L"), RawRow.mk (some 7) none (some "L")]]
      = Except.ok ([], []) := by decide

/-- C5 amended: every row of a successfully merged dataset carries a
timestamp and a kwh value that are the successful parse results of some
raw row of some considered source file; no further constraint (such as
non-negativity or finiteness of the raw data) is imposed. -/
theorem merged_row_provenance (dir : List SrcFile) (merged : List Row) (log : List String)
    (h : load_and_merge dir = Except.ok (merged, log)) :
    ∀ r ∈ merged, ∃ f ∈ consideredFiles dir, ∃ raw ∈ f.rows,
      raw.timestamp = some r.timestamp ∧ raw.kwh = some r.kwh := by
  intro r hr
  rw [load_and_merge_eq] at h
  by_cases hnil : ((consideredFiles dir).filterMap fun f => (processSource f).1) = []
  · rw [if_pos hnil] at h
    cases h
  · rw [if_neg hnil] at h
    have hm : merged = sortByTimestamp
        ((consideredFiles dir).filterMap fun f => (processSource f).1).flatten := by
      cases h
      rfl
    rw [hm] at hr
    have hr2 := mem_sortListB.mp hr
    rcases List.mem_flatten.mp hr2 with ⟨frame, hframe, hrf⟩
    rcases List.mem_filterMap.mp hframe with ⟨f, hf, hpf⟩
    refine ⟨f, hf, ?_⟩
    unfold processSource at hpf
    by_cases hv : f.vanished = true
    · rw [if_pos hv] at hpf
      cases hpf
    · rw [if_neg hv] at hpf
      by_cases hc : (f.has_timestamp_col && f.has_kwh_col) = true
      · rw [hc] at hpf
        simp only [Bool.not_true, Bool.false_eq_true, if_false, ite_false] at hpf
        have hframe2 : frame = f.rows.filterMap fun q =>
            match q.timestamp, q.kwh with
            | some t, some k =>
                some { building := if f.has_building_col then q.building else stemOf f.name
                       timestamp := t
                       kwh := k }
            | _, _ => none := by
          cases hpf
          rfl
        rw [hframe2] at hrf
        rcases List.mem_filterMap.mp hrf with ⟨raw, hraw, hmk⟩
        refine ⟨raw, hraw, ?_⟩
        cases hts : raw.timestamp with
        | none => rw [hts] at hmk; cases hmk
        | some t =>
          cases hkw : raw.kwh with
          | none => rw [hts, hkw] at hmk; cases hmk
          | some k =>
            rw [hts, hkw] at hmk
            have : ({ building := if f.has_building_col then raw.building else stemOf f.name
                      timestamp := t
                      kwh := k } : Row) = r := by
              cases hmk
              rfl
            rw [show r.timestamp = t by rw [this.symm], show r.kwh = k by rw [this.symm]]
            exact ⟨rfl, rfl⟩
      · rw [Bool.not_eq_true] at hc
        rw [hc] at hpf
        simp only [Bool.not_false, if_true, ite_true] at hpf
        cases hpf

/-- Witness for C5 (amended) at a one-source directory. -/
theorem merged_row_provenance_witness :
    ∃ f ∈ consideredFiles
        [SrcFile.mk "x.csv" false true true false [RawRow.mk (some 5) (some 3) none]],
      ∃ raw ∈ f.rows,
        raw.timestamp = some (Row.mk (some "x") 5 3).timestamp ∧
          raw.kwh = some (Row.mk (some "x") 5 3).kwh :=
  merged_row_provenance
    [SrcFile.mk "x.csv" false true true false [RawRow.mk (some 5) (some 3) none]]
    [Row.mk (some "x") 5 3] [] (by decide) (Row.mk (some "x") 5 3) (by decide)

/-- Counterexample to C5 as stated: a raw kwh cell parsing to a negative
number passes validation unchanged, so the merged dataset contains a
negative kwh value. -/
theorem negative_kwh_survives :
    load_and_merge
        [SrcFile.mk "gym.csv" false true true false [RawRow.mk (some 0) (some (-5)) none]]
      = Except.ok ([Row.mk (some "gym") 0 (-5)], []) ∧ (-5 : ℚ) < 0 := by
  constructor
  · decide
  · decide

/-! ### Registry path versus table path (claim C7) -/

theorem lookup_eq_none_iff {β : Type} (k : String) :
    ∀ l : List (String × β), l.lookup k = none ↔ k ∉ l.map Prod.fst
  | [] => by simp
  | (a, v) :: t => by
    by_cases hk : k = a
    · subst hk
      simp [List.lookup]
    · have hb : (k == a) = false := by simp [hk]
      simp [List.lookup, hb, hk, lookup_eq_none_iff k t]

theorem lookup_append_single_ne {β : Type} {k n : String} (b : β) (h : k ≠ n) :
    ∀ l : List (String × β), (l ++ [(n, b)]).lookup k = l.lookup k
  | [] => by
    have hb : (k == n) = false := by simp [h]
    simp [List.lookup, hb]
  | (a, v) :: t => by
    cases hk : (k == a) with
    | true => simp [List.lookup, hk]
    | false => simp [List.lookup, hk, lookup_append_single_ne b h t]

theorem get_or_create_buildings (m : BuildingManager) (n : String) :
    ((m.get_or_create n).1).buildings
      = if m.buildings.lookup n = none
        then m.buildings ++ [(n, Building.mk n [])]
        else m.buildings := by
  unfold BuildingManager.get_or_create
  cases h : m.buildings.lookup n <;> simp [h]

theorem readingsOf_get_or_create (m : BuildingManager) (n k : String) :
    ((m.get_or_create n).1).readingsOf k = m.readingsOf k := by
  unfold BuildingManager.readingsOf
  rw [get_or_create_buildings]
  by_cases h : m.buildings.lookup n = none
  · rw [if_pos h]
    by_cases hk : k = n
    · subst hk
      rw [lookup_append_of_none _ h, h]
      simp [List.lookup]
    · rw [lookup_append_single_ne _ hk]
  · rw [if_neg h]

theorem readingsOf_add_reading_to (m : BuildingManager) {n : String} (r : MeterReading)
    (h : (m.buildings.lookup n).isSome = true) :
    (m.add_reading_to n r).readingsOf n = m.readingsOf n ++ [r] := by
  unfold BuildingManager.readingsOf
  rw [lookup_add_reading_to]
  cases hl : m.buildings.lookup n with
  | none => rw [hl] at h; cases h
  | some b => simp [Building.add_reading]

theorem readingsOf_add_reading_to_ne (m : BuildingManager) {n k : String}
    (r : MeterReading) (h : k ≠ n) :
    (m.add_reading_to n r).readingsOf k = m.readingsOf k := by
  unfold BuildingManager.readingsOf
  rw [lookup_add_reading_to_ne m r h]

theorem load_row_some (m : BuildingManager) (row : Row) (name : String)
    (hb : row.building = some name) :
    m.load_row row = ((m.get_or_create name).1).add_reading_to name
      (MeterReading.mk row.timestamp row.kwh) := by
  unfold BuildingManager.load_row
  rw [hb]

theorem load_row_none (m : BuildingManager) (row : Row) (hb : row.building = none) :
    m.load_row row
      = { m with nan_buildings :=
            m.nan_buildings ++ [[MeterReading.mk row.timestamp row.kwh]] } := by
  unfold BuildingManager.load_row
  rw [hb]

theorem readingsOf_load_step (m : BuildingManager) (name : String) (t0 : Int) (q : ℚ)
    (k : String) :
    (((m.get_or_create name).1).add_reading_to name (MeterReading.mk t0 q)).readingsOf k
      = if name = k
        then m.readingsOf k ++ [MeterReading.mk t0 q]
        else m.readingsOf k := by
  by_cases h : name = k
  · subst h
    rw [if_pos rfl]
    rw [readingsOf_add_reading_to _ _ (by rw [lookup_get_or_create]; rfl)]
    rw [readingsOf_get_or_create]
  · rw [if_neg h]
    rw [readingsOf_add_reading_to_ne _ _ fun hk => h hk.symm]
    rw [readingsOf_get_or_create]

theorem readingsOf_load_from_df :
    ∀ (df : List Row) (m : BuildingManager) (k : String),
      (m.load_from_df df).readingsOf k
        = m.readingsOf k
            ++ (df.filter fun q => q.building = some k).map
                 fun q => MeterReading.mk q.timestamp q.kwh
  | [], m, k => by simp [BuildingManager.load_from_df]
  | row :: t, m, k => by
    unfold BuildingManager.load_from_df
    rw [List.foldl_cons]
    change (BuildingManager.load_from_df (m.load_row row) t).readingsOf k = _
    rw [readingsOf_load_from_df t _ k]
    cases hb : row.building with
    | some name =>
      rw [load_row_some m row name hb, readingsOf_load_step]
      by_cases h : name = k
      · subst h
        simp [List.filter_cons, hb, List.append_assoc]
      · simp [List.filter_cons, hb, h]
    | none =>
      rw [load_row_none m row hb]
      have hsame : ({ m with nan_buildings :=
          m.nan_buildings ++ [[MeterReading.mk row.timestamp row.kwh]] } :
            BuildingManager).readingsOf k = m.readingsOf k := rfl
      rw [hsame]
      simp [List.filter_cons, hb]

theorem map_fst_add_reading_to (m : BuildingManager) (n : String) (r : MeterReading) :
    (m.add_reading_to n r).buildings.map Prod.fst = m.buildings.map Prod.fst := by
  unfold BuildingManager.add_reading_to
  rw [List.map_map]
  exact List.map_congr_left fun p _ => by by_cases h : p.1 = n <;> simp [h]

theorem mem_keys_load_from_df :
    ∀ (df : List Row) (m : BuildingManager) (b : String),
      b ∈ (m.load_from_df df).buildings.map Prod.fst
        ↔ b ∈ m.buildings.map Prod.fst ∨ b ∈ df.filterMap (·.building)
  | [], m, b => by simp [BuildingManager.load_from_df]
  | row :: t, m, b => by
    unfold BuildingManager.load_from_df
    rw [List.foldl_cons]
    change b ∈ (BuildingManager.load_from_df (m.load_row row) t).buildings.map Prod.fst ↔ _
    rw [mem_keys_load_from_df t _ b]
    cases hb : row.building with
    | some name =>
      have hstep : b ∈ (m.load_row row).buildings.map Prod.fst
          ↔ b ∈ m.buildings.map Prod.fst ∨ b = name := by
        rw [load_row_some m row name hb, map_fst_add_reading_to, get_or_create_buildings]
        by_cases h : m.buildings.lookup name = none
        · rw [if_pos h]
          simp
        · rw [if_neg h]
          have hmem : name ∈ m.buildings.map Prod.fst := by
            by_contra hno
            exact h ((lookup_eq_none_iff name m.buildings).mpr hno)
          constructor
          · exact fun hb2 => Or.inl hb2
          · rintro (hb2 | rfl)
            · exact hb2
            · exact hmem
      rw [hstep]
      simp only [List.filterMap_cons, hb, List.mem_cons]
      tauto
    | none =>
      have hstep : (m.load_row row).buildings.map Prod.fst
          = m.buildings.map Prod.fst := by
        rw [load_row_none m row hb]
      rw [hstep]
      simp only [List.filterMap_cons, hb]

theorem names_load_from_df :
    ∀ (df : List Row) (m : BuildingManager),
      (∀ p ∈ m.buildings, (p : String × Building).2.name = p.1) →
      ∀ p ∈ (m.load_from_df df).buildings, (p : String × Building).2.name = p.1
  | [], m, hm => hm
  | row :: t, m, hm => by
    unfold BuildingManager.load_from_df
    rw [List.foldl_cons]
    change ∀ p ∈ (BuildingManager.load_from_df (m.load_row row) t).buildings, _
    apply names_load_from_df t
    cases hb : row.building with
    | none =>
      rw [load_row_none m row hb]
      exact hm
    | some name =>
      rw [load_row_some m row name hb]
      intro p hp
      unfold BuildingManager.add_reading_to at hp
      rcases List.mem_map.mp hp with ⟨q, hq, rfl⟩
      rw [get_or_create_buildings] at hq
      have hq2 : (∀ x ∈ m.buildings ++ [(name, Building.mk name [])],
          (x : String × Building).2.name = x.1) := by
        intro x hx
        rcases List.mem_append.mp hx with hx | hx
        · exact hm x hx
        · rcases List.mem_singleton.mp hx with rfl
          rfl
      have hqname : q.2.name = q.1 := by
        by_cases h : m.buildings.lookup name = none
        · rw [if_pos h] at hq
          exact hq2 q hq
        · rw [if_neg h] at hq
          exact hm q hq
      by_cases h : q.1 = name
      · simp only [if_pos h]
        simpa [Building.add_reading]
      · simp only [if_neg h]
        exact hqname

theorem keys_nodup_load_from_df :
    ∀ (df : List Row) (m : BuildingManager),
      (m.buildings.map Prod.fst).Nodup →
      ((m.load_from_df df).buildings.map Prod.fst).Nodup
  | [], m, hm => hm
  | row :: t, m, hm => by
    unfold BuildingManager.load_from_df
    rw [List.foldl_cons]
    change ((BuildingManager.load_from_df (m.load_row row) t).buildings.map Prod.fst).Nodup
    apply keys_nodup_load_from_df t
    cases hb : row.building with
    | none =>
      rw [load_row_none m row hb]
      exact hm
    | some name =>
      rw [load_row_some m row name hb, map_fst_add_reading_to, get_or_create_buildings]
      by_cases h : m.buildings.lookup name = none
      · rw [if_pos h]
        have hno : name ∉ m.buildings.map Prod.fst :=
          (lookup_eq_none_iff name m.buildings).mp h
        simp [List.nodup_append, hm, hno]
      · rw [if_neg h]
        exact hm

theorem nan_buildings_load_from_df :
    ∀ (df : List Row) (m : BuildingManager),
      (m.load_from_df df).nan_buildings
        = m.nan_buildings
            ++ (df.filter fun r => r.building = none).map
                 fun r => [MeterReading.mk r.timestamp r.kwh]
  | [], m => by simp [BuildingManager.load_from_df]
  | row :: t, m => by
    unfold BuildingManager.load_from_df
    rw [List.foldl_cons]
    change (BuildingManager.load_from_df (m.load_row row) t).nan_buildings = _
    rw [nan_buildings_load_from_df t]
    cases hb : row.building with
    | some name =>
      have hsame : (m.load_row row).nan_buildings = m.nan_buildings := by
        rw [load_row_some m row name hb]
        have h1 : (((m.get_or_create name).1).add_reading_to name
            (MeterReading.mk row.timestamp row.kwh)).nan_buildings
              = ((m.get_or_create name).1).nan_buildings := rfl
        have h2 : ((m.get_or_create name).1).nan_buildings = m.nan_buildings := by
          unfold BuildingManager.get_or_create
          cases h : m.buildings.lookup name <;> simp [h]
        rw [h1, h2]
      rw [hsame]
      simp [List.filter_cons, hb]
    | none =>
      rw [load_row_none m row hb]
      simp [List.filter_cons, hb, List.append_assoc]

theorem lookup_of_mem_of_nodup {β : Type} :
    ∀ {l : List (String × β)} {p : String × β},
      (l.map Prod.fst).Nodup → p ∈ l → l.lookup p.1 = some p.2 := by
  intro l
  induction l with
  | nil => intro p _ hp; cases hp
  | cons q t ih =>
    intro p hnd hp
    rw [List.map_cons, List.nodup_cons] at hnd
    rcases List.mem_cons.mp hp with rfl | hp
    · have : (p.1 == p.1) = true := by simp
      simp [List.lookup, this]
    · have hne : p.1 ≠ q.1 := by
        intro he
        exact hnd.1 (he ▸ List.mem_map_of_mem Prod.fst hp)
      have hb : (p.1 == q.1) = false := by simp [hne]
      simp [List.lookup, hb, ih hnd.2 hp]

/-- C7 amended: on a merged dataset in which every row's building key is
non-null, loading it into a `BuildingManager` creates no `NaN`-keyed
accumulator, registers the same buildings as `building_wise_summary`,
and for each report there is a summary row with the same building and
equal `total_kwh`, `mean_kwh` and `max_kwh` (exactly, over exact
rationals). A row with a null building key breaks the equivalence: the
registry registers it while the summary path drops it. -/
theorem registry_matches_building_summary (df : List Row)
    (hall : ∀ r ∈ df, (r.building.isSome) = true) :
    (BuildingManager.load_from_df (BuildingManager.mk [] []) df).nan_buildings = [] ∧
      (∀ b : String,
        b ∈ (BuildingManager.load_from_df
              (BuildingManager.mk [] []) df).buildings.map Prod.fst
          ↔ b ∈ (building_wise_summary df).map (·.building)) ∧
      ∀ rep ∈ (BuildingManager.load_from_df (BuildingManager.mk [] []) df).summary_table,
        ∃ s ∈ building_wise_summary df,
          s.building = rep.building ∧ s.total_kwh = rep.total_kwh ∧
            s.mean_kwh = rep.mean_kwh ∧ s.max_kwh = rep.max_kwh := by
  have hsummap : (building_wise_summary df).map (·.building) = groupKeys df := by
    unfold building_wise_summary
    rw [List.map_map]
    exact List.map_id _
  refine ⟨?_, ?_, ?_⟩
  · rw [nan_buildings_load_from_df df (BuildingManager.mk [] [])]
    have hnil : (df.filter fun r => r.building = none) = [] := by
      apply List.filter_eq_nil_iff.mpr
      intro r hr
      have := hall r hr
      cases hsb : r.building with
      | none => rw [hsb] at this; cases this
      | some v => simp [hsb]
    rw [hnil]
    rfl
  · intro b
    rw [mem_keys_load_from_df df (BuildingManager.mk [] []) b, hsummap, mem_groupKeys]
    simp
  · intro rep hrep
    unfold BuildingManager.summary_table at hrep
    rcases List.mem_map.mp hrep with ⟨p, hp, rfl⟩
    have hname : p.2.name = p.1 :=
      names_load_from_df df (BuildingManager.mk [] []) (by intro x hx; cases hx) p hp
    have hnod : ((BuildingManager.load_from_df (BuildingManager.mk [] [])
        df).buildings.map Prod.fst).Nodup :=
      keys_nodup_load_from_df df (BuildingManager.mk [] []) List.Pairwise.nil
    have hread : p.2.meter_readings
        = (df.filter fun q => q.building = some p.1).map
            fun q => MeterReading.mk q.timestamp q.kwh := by
      have h1 := readingsOf_load_from_df df (BuildingManager.mk [] []) p.1
      unfold BuildingManager.readingsOf at h1
      rw [lookup_of_mem_of_nodup hnod hp] at h1
      simpa using h1
    have hkey : p.1 ∈ df.filterMap (·.building) := by
      have := (mem_keys_load_from_df df (BuildingManager.mk [] []) p.1).mp
        (List.mem_map_of_mem Prod.fst hp)
      simpa using this
    have hgk : p.1 ∈ groupKeys df := mem_groupKeys.mpr hkey
    have hfilter_ne : (df.filter fun q => q.building = some p.1) ≠ [] := by
      rcases List.mem_filterMap.mp hkey with ⟨r, hr, hrb⟩
      intro hnil
      have : r ∈ df.filter fun q => q.building = some p.1 :=
        List.mem_filter.mpr ⟨hr, by simp [hrb]⟩
      rw [hnil] at this
      cases this
    have hne : p.2.meter_readings ≠ [] := by
      rw [hread]
      intro hnil
      exact hfilter_ne (List.map_eq_nil_iff.mp hnil)
    have hvals : p.2.meter_readings.map (·.kwh) = kwhsOf df p.1 := by
      rw [hread, List.map_map]
      rfl
    refine ⟨{ building := p.1
              mean_kwh := (kwhsOf df p.1).sum / ((kwhsOf df p.1).length : ℚ)
              min_kwh := ((kwhsOf df p.1).min?).getD 0
              max_kwh := ((kwhsOf df p.1).max?).getD 0
              total_kwh := (kwhsOf df p.1).sum }, ?_, ?_⟩
    · unfold building_wise_summary
      exact List.mem_map_of_mem _ hgk
    · unfold Building.generate_report
      rw [if_neg hne]
      refine ⟨by simpa using hname.symm, ?_, ?_, ?_⟩
      · simp [hvals]
      · simp [hvals]
      · simp [hvals]

/-- Witness for C7 (amended) at a concrete merged dataset with only
non-null building keys. -/
theorem registry_matches_building_summary_witness :
    ∃ s ∈ building_wise_summary
        ([⟨some "A", 0, 1⟩, ⟨some "B", 5, 4⟩, ⟨some "A", 3, 2⟩] : List Row),
      s.building = (Report.mk "A" 3 (3/2) 2).building ∧
        s.total_kwh = (Report.mk "A" 3 (3/2) 2).total_kwh ∧
        s.mean_kwh = (Report.mk "A" 3 (3/2) 2).mean_kwh ∧
        s.max_kwh = (Report.mk "A" 3 (3/2) 2).max_kwh :=
  (registry_matches_building_summary
      [⟨some "A", 0, 1⟩, ⟨some "B", 5, 4⟩, ⟨some "A", 3, 2⟩] (by decide)).2.2
    (Report.mk "A" 3 (3/2) 2) (by decide)

/-- Counterexample to C7 as stated: on a merged dataset with a blank
(`NaN`) building cell, `load_from_df` iterates all rows and registers a
fresh `NaN`-keyed accumulator holding the reading, while
`building_wise_summary`'s `groupby` drops the row — so the registry path
reports one more building than the summary path, and the two paths do
not compute the same statistics over the same set of buildings. -/
theorem nan_building_splits_paths :
    building_wise_summary ([⟨some "A", 0, 1⟩, ⟨none, 5, 4⟩] : List Row)
        = [SummaryRow.mk "A" 1 1 1 1] ∧
      (BuildingManager.load_from_df (BuildingManager.mk [] [])
          ([⟨some "A", 0, 1⟩, ⟨none, 5, 4⟩] : List Row)).summary_table
        = [Report.mk "A" 1 1 1] ∧
      (BuildingManager.load_from_df (BuildingManager.mk [] [])
          ([⟨some "A", 0, 1⟩, ⟨none, 5, 4⟩] : List Row)).nan_buildings
        = [[MeterReading.mk 5 4]] := by
  refine ⟨by decide, by decide, by decide⟩

/-! ### Resampling (claim C4) -/

theorem exists_range_index_iff {step lo hi d : Int} (hstep : 0 < step)
    (hdvd : step ∣ hi - lo) (hlh : lo ≤ hi) :
    (∃ i : Nat, i < ((hi - lo) / step).toNat.succ ∧ lo + step * (i : Int) = d) ↔
      lo ≤ d ∧ d ≤ hi ∧ step ∣ d - lo := by
  constructor
  · rintro ⟨i, hilt, rfl⟩
    refine ⟨?_, ?_, ?_⟩
    · have h0 : (0 : Int) ≤ step * (i : Int) :=
        mul_nonneg hstep.le (Int.natCast_nonneg i)
      omega
    · have hN : (0 : Int) ≤ (hi - lo) / step := Int.ediv_nonneg (by omega) hstep.le
      have hile : (i : Int) ≤ (hi - lo) / step := by
        have h1 : i ≤ ((hi - lo) / step).toNat := Nat.lt_succ_iff.mp hilt
        calc (i : Int) ≤ (((hi - lo) / step).toNat : Int) := by exact_mod_cast h1
          _ = (hi - lo) / step := Int.toNat_of_nonneg hN
      have hmul : step * (i : Int) ≤ step * ((hi - lo) / step) :=
        mul_le_mul_of_nonneg_left hile hstep.le
      rw [Int.mul_ediv_cancel' hdvd] at hmul
      omega
    · have : lo + step * (i : Int) - lo = step * (i : Int) := by ring
      rw [this]
      exact dvd_mul_right step _
  · rintro ⟨hld, hdh, hdvd2⟩
    have hj0 : (0 : Int) ≤ (d - lo) / step := Int.ediv_nonneg (by omega) hstep.le
    have hjmul : step * ((d - lo) / step) = d - lo := Int.mul_ediv_cancel' hdvd2
    refine ⟨((d - lo) / step).toNat, ?_, ?_⟩
    · rw [Nat.lt_succ_iff]
      exact Int.toNat_le_toNat (Int.ediv_le_ediv hstep (by omega))
    · have hc : ((((d - lo) / step).toNat : Int)) = (d - lo) / step :=
        Int.toNat_of_nonneg hj0
      rw [hc, hjmul]
      ring

theorem mem_resampleBlock {bucket : Int → Int} {step : Int} (hstep : 0 < step)
    (halign : ∀ s t : Int, step ∣ bucket s - bucket t) (df : List Row) (b : String)
    (x : AggRow) :
    x ∈ resampleBlock bucket step df b ↔
      x.building = b ∧
        ∃ lo hi,
          ((groupRows df b).map fun r => bucket r.timestamp).min? = some lo ∧
            ((groupRows df b).map fun r => bucket r.timestamp).max? = some hi ∧
            lo ≤ x.timestamp ∧ x.timestamp ≤ hi ∧ step ∣ x.timestamp - lo ∧
            x.kwh = (((groupRows df b).filter
                fun r => bucket r.timestamp = x.timestamp).map (·.kwh)).sum := by
  obtain ⟨xb, xd, xq⟩ := x
  unfold resampleBlock
  cases hlo : ((groupRows df b).map fun r => bucket r.timestamp).min? with
  | none => simp [hlo]
  | some lo' =>
    cases hhi : ((groupRows df b).map fun r => bucket r.timestamp).max? with
    | none =>
      rw [List.max?_eq_none_iff] at hhi
      rw [hhi] at hlo
      cases hlo
    | some hi' =>
      have hloM : lo' ∈ (groupRows df b).map fun r => bucket r.timestamp :=
        List.min?_mem (fun a b : Int => min_choice a b) hlo
      have hhiM : hi' ∈ (groupRows df b).map fun r => bucket r.timestamp :=
        List.max?_mem (fun a b : Int => max_choice a b) hhi
      have hmax : ∀ y ∈ (groupRows df b).map fun r => bucket r.timestamp, y ≤ hi' :=
        (List.max?_le_iff (fun a b c : Int => max_le_iff) hhi).mp le_rfl
      have hlh : lo' ≤ hi' := hmax lo' hloM
      have hdvd : step ∣ hi' - lo' := by
        rcases List.mem_map.mp hloM with ⟨r1, _, hr1⟩
        rcases List.mem_map.mp hhiM with ⟨r2, _, hr2⟩
        rw [← hr1, ← hr2]
        exact halign r2.timestamp r1.timestamp
      constructor
      · intro hmem
        rcases List.mem_map.mp hmem with ⟨i, hir, hfi⟩
        rw [List.mem_range] at hir
        cases hfi
        have hb := (exists_range_index_iff hstep hdvd hlh).mp ⟨i, hir, rfl⟩
        exact ⟨rfl, lo', hi', rfl, rfl, hb.1, hb.2.1, hb.2.2, rfl⟩
      · rintro ⟨rfl, lo, hi, hl, hh, hld, hdh, hdvd2, hq⟩
        rcases Option.some.inj hl with rfl
        rcases Option.some.inj hh with rfl
        rcases (exists_range_index_iff hstep hdvd hlh).mpr ⟨hld, hdh, hdvd2⟩
          with ⟨i, hir, hieq⟩
        refine List.mem_map.mpr ⟨i, List.mem_range.mpr hir, ?_⟩
        rw [hieq, ← hq]

theorem mem_resampleSum {bucket : Int → Int} {step : Int} (hstep : 0 < step)
    (halign : ∀ s t : Int, step ∣ bucket s - bucket t) (df : List Row) (x : AggRow) :
    x ∈ resampleSum bucket step df ↔
      ∃ lo hi,
        ((groupRows df x.building).map fun r => bucket r.timestamp).min? = some lo ∧
          ((groupRows df x.building).map fun r => bucket r.timestamp).max? = some hi ∧
          lo ≤ x.timestamp ∧ x.timestamp ≤ hi ∧ step ∣ x.timestamp - lo ∧
          x.kwh = (((groupRows df x.building).filter
              fun r => bucket r.timestamp = x.timestamp).map (·.kwh)).sum := by
  unfold resampleSum
  rw [List.mem_flatMap]
  constructor
  · rintro ⟨k, hk, hmem⟩
    have h := (mem_resampleBlock hstep halign df k x).mp hmem
    rcases h with ⟨hb, rest⟩
    rw [hb]
    exact rest
  · rintro ⟨lo, hi, hl, hh, hld, hdh, hdvd2, hq⟩
    refine ⟨x.building, ?_, ?_⟩
    · have hne : groupRows df x.building ≠ [] := by
        intro hnil
        rw [hnil] at hl
        cases hl
      have : ∃ r ∈ df, r.building = some x.building := by
        rcases List.exists_mem_of_ne_nil _ hne with ⟨r, hr⟩
        have := List.mem_filter.mp hr
        exact ⟨r, this.1, by simpa using this.2⟩
      rcases this with ⟨r, hr, hrb⟩
      exact mem_groupKeys.mpr (List.mem_filterMap.mpr ⟨r, hr, hrb⟩)
    · exact (mem_resampleBlock hstep halign df x.building x).mpr
        ⟨rfl, lo, hi, hl, hh, hld, hdh, hdvd2, hq⟩

theorem nodup_flatMap_of_tag {β κ : Type} [DecidableEq κ] (tag : β → κ) :
    ∀ (keys : List κ) (f : κ → List β),
      keys.Nodup → (∀ k ∈ keys, ∀ x ∈ f k, tag x = k) →
      (∀ k ∈ keys, (f k).Nodup) → (keys.flatMap f).Nodup
  | [], f, _, _, _ => by simp
  | k :: t, f, hnd, htag, hblock => by
    rw [List.flatMap_cons]
    rw [List.nodup_cons] at hnd
    apply List.Nodup.append
    · exact hblock k (List.mem_cons_self k t)
    · exact nodup_flatMap_of_tag tag t f hnd.2
        (fun k2 hk2 => htag k2 (List.mem_cons_of_mem k hk2))
        (fun k2 hk2 => hblock k2 (List.mem_cons_of_mem k hk2))
    · intro x hx hx2
      rcases List.mem_flatMap.mp hx2 with ⟨k2, hk2, hxk2⟩
      have h1 : tag x = k := htag k (List.mem_cons_self k t) x hx
      have h2 : tag x = k2 := htag k2 (List.mem_cons_of_mem k hk2) x hxk2
      exact hnd.1 (h1 ▸ h2 ▸ hk2)

theorem resampleSum_key_pairs_nodup (bucket : Int → Int) {step : Int} (hstep : 0 < step)
    (df : List Row) :
    ((resampleSum bucket step df).map fun a => (a.building, a.timestamp)).Nodup := by
  unfold resampleSum
  rw [List.map_flatMap]
  apply nodup_flatMap_of_tag Prod.fst (groupKeys df) _ (nodup_groupKeys df)
  · intro k _ x hx
    rcases List.mem_map.mp hx with ⟨a, ha, rfl⟩
    unfold resampleBlock at ha
    cases hlo : ((groupRows df k).map fun r => bucket r.timestamp).min? with
    | none => rw [hlo] at ha; simp at ha
    | some lo =>
      cases hhi : ((groupRows df k).map fun r => bucket r.timestamp).max? with
      | none => rw [hlo, hhi] at ha; simp at ha
      | some hi =>
        rw [hlo, hhi] at ha
        rcases List.mem_map.mp ha with ⟨i, _, rfl⟩
        rfl
  · intro k _
    unfold resampleBlock
    cases hlo : ((groupRows df k).map fun r => bucket r.timestamp).min? with
    | none => simp
    | some lo =>
      cases hhi : ((groupRows df k).map fun r => bucket r.timestamp).max? with
      | none => simp
      | some hi =>
        rw [List.map_map]
        apply List.Nodup.map ?_ (List.nodup_range _)
        intro i j hij
        have h2 : lo + step * (i : Int) = lo + step * (j : Int) := by
          have := congrArg Prod.snd hij
          simpa using this
        have h3 : (i : Int) = (j : Int) :=
          mul_left_cancel₀ (by omega : step ≠ 0) (add_left_cancel h2)
        exact_mod_cast h3

theorem weekEndOf_align (s t : Int) : (7 : Int) ∣ weekEndOf s - weekEndOf t := by
  unfold weekEndOf
  generalize dayOf s = a
  generalize dayOf t = b
  rw [Int.emod_def, Int.emod_def]
  exact ⟨(3 - b) / 7 - (3 - a) / 7, by ring⟩

/-- C4 amended: the daily and weekly derivations are densified, not
sparse. For each building, `calculate_daily_totals` emits exactly one
row per calendar day from the building's first reading day through its
last — a day in that span with no readings yields a row with sum `0`
rather than no row — and no rows outside the span; the row's value is
always the sum of the building's readings in that day.
`calculate_weekly_aggregates` behaves the same on 7-day buckets ending
Sunday. -/
theorem resample_densifies (df : List Row) :
    (∀ x : AggRow,
        x ∈ calculate_daily_totals df ↔
          ∃ lo hi,
            ((groupRows df x.building).map fun r => dayOf r.timestamp).min? = some lo ∧
              ((groupRows df x.building).map fun r => dayOf r.timestamp).max? = some hi ∧
              lo ≤ x.timestamp ∧ x.timestamp ≤ hi ∧
              x.kwh = (((groupRows df x.building).filter
                  fun r => dayOf r.timestamp = x.timestamp).map (·.kwh)).sum) ∧
      ((calculate_daily_totals df).map fun a => (a.building, a.timestamp)).Nodup ∧
      (∀ x : AggRow,
        x ∈ calculate_weekly_aggregates df ↔
          ∃ lo hi,
            ((groupRows df x.building).map fun r => weekEndOf r.timestamp).min? = some lo ∧
              ((groupRows df x.building).map fun r => weekEndOf r.timestamp).max?
                = some hi ∧
              lo ≤ x.timestamp ∧ x.timestamp ≤ hi ∧ (7 : Int) ∣ x.timestamp - lo ∧
              x.kwh = (((groupRows df x.building).filter
                  fun r => weekEndOf r.timestamp = x.timestamp).map (·.kwh)).sum) ∧
      ((calculate_weekly_aggregates df).map fun a => (a.building, a.timestamp)).Nodup := by
  refine ⟨?_, ?_, ?_, ?_⟩
  · intro x
    unfold calculate_daily_totals
    rw [mem_resampleSum one_pos (fun s t => one_dvd _) df x]
    constructor
    · rintro ⟨lo, hi, h1, h2, h3, h4, _, h6⟩
      exact ⟨lo, hi, h1, h2, h3, h4, h6⟩
    · rintro ⟨lo, hi, h1, h2, h3, h4, h6⟩
      exact ⟨lo, hi, h1, h2, h3, h4, one_dvd _, h6⟩
  · exact resampleSum_key_pairs_nodup dayOf one_pos df
  · intro x
    unfold calculate_weekly_aggregates
    exact mem_resampleSum (by omega) weekEndOf_align df x
  · exact resampleSum_key_pairs_nodup weekEndOf (by omega) df

/-- Witness for C4 (amended): the zero-filled middle day of a two-day
gap is a row of the daily table. -/
theorem resample_densifies_witness :
    AggRow.mk "A" 1 0 ∈
      calculate_daily_totals ([⟨some "A", 0, 1⟩, ⟨some "A", 172800, 2⟩] : List Row) :=
  ((resample_densifies [⟨some "A", 0, 1⟩, ⟨some "A", 172800, 2⟩]).1 (AggRow.mk "A" 1 0)).mpr
    ⟨0, 2, by decide, by decide, by decide, by decide, by decide⟩

/-- Counterexample to C4 as stated: with readings only on days 0 and 2
(resp. weeks ending day 3 and day 17), the derivations emit a row for
the readingless middle bucket with value `0`, so a (building, period)
pair with zero readings does produce a row — the output is densified,
not sparse. -/
theorem daily_weekly_zero_fill :
    calculate_daily_totals ([⟨some "A", 0, 1⟩, ⟨some "A", 172800, 2⟩] : List Row)
        = [AggRow.mk "A" 0 1, AggRow.mk "A" 1 0, AggRow.mk "A" 2 2] ∧
      (([⟨some "A", 0, 1⟩, ⟨some "A", 172800, 2⟩] : List Row).filter
          fun r => r.building = some "A" ∧ dayOf r.timestamp = 1) = [] ∧
      calculate_weekly_aggregates ([⟨some "A", 0, 1⟩, ⟨some "A", 1209600, 2⟩] : List Row)
        = [AggRow.mk "A" 3 1, AggRow.mk "A" 10 0, AggRow.mk "A" 17 2] ∧
      (([⟨some "A", 0, 1⟩, ⟨some "A", 1209600, 2⟩] : List Row).filter
          fun r => r.building = some "A" ∧ weekEndOf r.timestamp = 10) = [] := by
  refine ⟨by decide, by decide, by decide, by decide⟩

end CampusEnergy
